import Mathlib

/-!
Verification of the lead-generation pipeline of this repository
(`google_places_client.py`, `google_sheets_writer.py`, `maps_mcp.py`).

The Python sources are shallowly embedded below: pure string-massaging
helpers become Lean functions on `List Char` / `String`, the paginated
search loop becomes a recursion over the finite stream of provider
responses, the enrichment fan-out becomes a per-item total function over
a fallible details provider, and the facade's try/except export handling
becomes a `match` on an `Except` value.  Python truthiness (`if s:` on an
optional string) is modeled explicitly wherever the source relies on it.

String operations are modeled at the code-point level over the ASCII and
Turkish alphabets, matching `str.lower` / `str.strip` / `re` behavior on
the program's input domain (Turkish addresses and province names); in
particular `'İ'.lower()` expanding to `"i"` + combining-dot U+0307 is
reproduced faithfully.
-/

deriving instance DecidableEq for Except

namespace IhaleMcp

/-- Whitespace as recognized by `str.strip` / `str.split()` on this domain. -/
def isWS (c : Char) : Bool := c.isWhitespace

/-- Word character for the `\b` boundary of Python's `re` (`\w`): ASCII
alphanumerics, underscore, and the Turkish letters appearing in addresses. -/
def isWordChar (c : Char) : Bool :=
  c.isAlphanum || c = '_' ||
  c = 'ç' || c = 'ğ' || c = 'ı' || c = 'ö' || c = 'ş' || c = 'ü' ||
  c = 'Ç' || c = 'Ğ' || c = 'İ' || c = 'Ö' || c = 'Ş' || c = 'Ü'

/-- `str.strip` on a code-point list. -/
def trimChars (l : List Char) : List Char :=
  ((l.dropWhile isWS).reverse.dropWhile isWS).reverse

/-- `str.strip` on a `String`. -/
def pyStrip (s : String) : String := String.mk (trimChars s.data)

/-- One code point of Python `str.lower`, restricted to the ASCII and Turkish
alphabet (the program's domain).  `'İ'` (U+0130) lowers to `"i"` followed by
combining dot above (U+0307), exactly as CPython does. -/
def lowerOne (c : Char) : List Char :=
  if c = 'İ' then ['i', '̇']
  else if c = 'I' then ['i']
  else if c = 'Ç' then ['ç']
  else if c = 'Ğ' then ['ğ']
  else if c = 'Ö' then ['ö']
  else if c = 'Ş' then ['ş']
  else if c = 'Ü' then ['ü']
  else if 'A' ≤ c ∧ c ≤ 'Z' then [c.toLower]
  else [c]

/-- Python `str.lower` on a code-point list. -/
def lowerChars (l : List Char) : List Char := (l.map lowerOne).flatten

/-- Python `str.lower` on a `String`. -/
def pyLower (s : String) : String := String.mk (lowerChars s.data)

/-- One code point of Python `str.upper`, same domain restriction. -/
def upperOne (c : Char) : Char :=
  if c = 'ç' then 'Ç'
  else if c = 'ğ' then 'Ğ'
  else if c = 'ı' then 'I'
  else if c = 'i' then 'I'
  else if c = 'ö' then 'Ö'
  else if c = 'ş' then 'Ş'
  else if c = 'ü' then 'Ü'
  else if 'a' ≤ c ∧ c ≤ 'z' then c.toUpper
  else c

/-- Python `str.upper` on a `String` (used for business-status comparison). -/
def pyUpper (s : String) : String := String.mk (s.data.map upperOne)

/-- The six diacritic replacements of `_normalize_il_name`
(`ı→i, ğ→g, ü→u, ş→s, ö→o, ç→c`). -/
def foldChar (c : Char) : Char :=
  if c = 'ı' then 'i'
  else if c = 'ğ' then 'g'
  else if c = 'ü' then 'u'
  else if c = 'ş' then 's'
  else if c = 'ö' then 'o'
  else if c = 'ç' then 'c'
  else c

/-- `_normalize_il_name`: `il_name.strip().lower()` followed by the six
single-character replacements. -/
def normalizeIlName (s : String) : String :=
  String.mk ((lowerChars (trimChars s.data)).map foldChar)

/-- Python `list.split(sep)` for a single-character separator: always returns
at least one (possibly empty) group. -/
def splitChar (sep : Char) : List Char → List (List Char)
  | [] => [[]]
  | c :: cs =>
    match splitChar sep cs with
    | g :: gs => if c = sep then [] :: g :: gs else (c :: g) :: gs
    | [] => [[c]]

/-- Number of tokens of Python `s.split()` (split on whitespace runs,
dropping empties).  The flag records whether the previous char was
non-whitespace. -/
def wsTokenCountAux : List Char → Bool → Nat
  | [], _ => 0
  | c :: cs, inWord =>
    if isWS c then wsTokenCountAux cs false
    else (if inWord then 0 else 1) + wsTokenCountAux cs true

def wsTokenCount (l : List Char) : Nat := wsTokenCountAux l false

/-- Python substring test `needle in hay` on code-point lists. -/
def containsSub : List Char → List Char → Bool
  | n, [] => n.isEmpty
  | n, c :: cs => n.isPrefixOf (c :: cs) || containsSub n cs

/-- Fueled worker for `str.replace(pat, "")`: removes all non-overlapping
occurrences of `pat`, scanning left to right (CPython semantics). -/
def removeSubAux (pat : List Char) : Nat → List Char → List Char
  | 0, l => l
  | _ + 1, [] => []
  | fuel + 1, c :: cs =>
    if pat.isPrefixOf (c :: cs) && !pat.isEmpty then
      removeSubAux pat fuel (List.drop pat.length (c :: cs))
    else c :: removeSubAux pat fuel cs

/-- `s.replace(pat, "")` on a code-point list. -/
def removeSub (pat : String) (l : List Char) : List Char :=
  removeSubAux pat.data l.length l

/-- `re.search(r'\d{5}', s)` as a Boolean: is there a run of five
consecutive digit characters anywhere? -/
def hasFiveDigitRun : List Char → Bool
  | [] => false
  | c :: cs =>
    (match cs with
     | c2 :: c3 :: c4 :: c5 :: _ =>
       c.isDigit && c2.isDigit && c3.isDigit && c4.isDigit && c5.isDigit
     | _ => false) || hasFiveDigitRun cs

/-- Fueled worker for `re.sub(r'\d{5}\s*', '', s)`: every (leftmost,
non-overlapping) run of exactly five digits plus trailing whitespace is
deleted, scanning resumes after the deleted run. -/
def rmFiveAux : Nat → List Char → List Char
  | 0, l => l
  | _ + 1, [] => []
  | fuel + 1, c :: cs =>
    match cs with
    | c2 :: c3 :: c4 :: c5 :: rest =>
      if c.isDigit && c2.isDigit && c3.isDigit && c4.isDigit && c5.isDigit then
        rmFiveAux fuel (rest.dropWhile isWS)
      else c :: rmFiveAux fuel cs
    | _ => c :: rmFiveAux fuel cs

/-- `re.sub(r'\d{5}\s*', '', s)` on a code-point list. -/
def rmFiveRuns (l : List Char) : List Char := rmFiveAux l.length l

/-- `re.sub(r'^\d{5}\s*', '', s)`: anchored variant, used to clean a
district candidate; at most one substitution, at the start. -/
def stripLeadingPostal (l : List Char) : List Char :=
  match l with
  | c1 :: c2 :: c3 :: c4 :: c5 :: rest =>
    if c1.isDigit && c2.isDigit && c3.isDigit && c4.isDigit && c5.isDigit then
      rest.dropWhile isWS
    else l
  | _ => l

/-- `re.search(r'\b(\d{5})\b', address)`: scan for the leftmost standalone
run of exactly five digits.  The Boolean argument records whether the
previous character was a word character (left `\b`). -/
def findPostalAux : Bool → List Char → Option String
  | _, [] => none
  | prevWord, c :: cs =>
    (if !prevWord && c.isDigit then
      match cs with
      | c2 :: c3 :: c4 :: c5 :: rest2 =>
        if c2.isDigit && c3.isDigit && c4.isDigit && c5.isDigit &&
           (match rest2 with
            | [] => true
            | c6 :: _ => !isWordChar c6) then
          some (String.mk [c, c2, c3, c4, c5])
        else none
      | _ => none
    else none).orElse (fun _ => findPostalAux (isWordChar c) cs)

/-- `_extract_postal_code_from_address`. -/
def extractPostal (address : String) : Option String :=
  findPostalAux false address.data

/-- Python truthiness of an optional string (`if s:`). -/
def optTruthy : Option String → Bool
  | none => false
  | some s => !(s == "")

/-- `POSTAL_CODE_TO_IL`: two-digit postal prefix → province, in the
source's insertion order. -/
def POSTAL_CODE_TO_IL : List (String × String) :=
  [("01", "adana"), ("02", "adiyaman"), ("03", "afyonkarahisar"), ("04", "agri"), ("05", "amasya"),
   ("06", "ankara"), ("07", "antalya"), ("08", "artvin"), ("09", "aydin"), ("10", "balikesir"),
   ("11", "bilecik"), ("12", "bingol"), ("13", "bitlis"), ("14", "bolu"), ("15", "burdur"),
   ("16", "bursa"), ("17", "canakkale"), ("18", "cankiri"), ("19", "corum"), ("20", "denizli"),
   ("21", "diyarbakir"), ("22", "edirne"), ("23", "elazig"), ("24", "erzincan"), ("25", "erzurum"),
   ("26", "eskisehir"), ("27", "gaziantep"), ("28", "giresun"), ("29", "gumushane"), ("30", "hakkari"),
   ("31", "hatay"), ("32", "isparta"), ("33", "mersin"), ("34", "istanbul"), ("35", "izmir"),
   ("36", "kars"), ("37", "kastamonu"), ("38", "kayseri"), ("39", "kirklareli"), ("40", "kirsehir"),
   ("41", "kocaeli"), ("42", "konya"), ("43", "kutahya"), ("44", "malatya"), ("45", "manisa"),
   ("46", "kahramanmaras"), ("47", "mardin"), ("48", "mugla"), ("49", "mus"), ("50", "nevsehir"),
   ("51", "nigde"), ("52", "ordu"), ("53", "rize"), ("54", "sakarya"), ("55", "samsun"),
   ("56", "siirt"), ("57", "sinop"), ("58", "sivas"), ("59", "tekirdag"), ("60", "tokat"),
   ("61", "trabzon"), ("62", "tunceli"), ("63", "sanliurfa"), ("64", "usak"), ("65", "van"),
   ("66", "yozgat"), ("67", "zonguldak"), ("68", "aksaray"), ("69", "bayburt"), ("70", "karaman"),
   ("71", "kirikkale"), ("72", "batman"), ("73", "sirnak"), ("74", "bartin"), ("75", "ardahan"),
   ("76", "igdir"), ("77", "yalova"), ("78", "karabuk"), ("79", "kilis"), ("80", "osmaniye"),
   ("81", "duzce")]

/-- The province names of the table, in values-iteration order. -/
def ilValues : List String := POSTAL_CODE_TO_IL.map (fun e => e.2)

/-- `_get_il_from_postal_code`: look up the first two digits. -/
def ilFromPostal (postalCode : String) : Option String :=
  if 2 ≤ postalCode.length then
    (POSTAL_CODE_TO_IL.find? (fun e => e.1 == String.mk (postalCode.data.take 2))).map
      (fun e => e.2)
  else none

/-- `[p.strip() for p in address.split(",")]`. -/
def addressParts (a : String) : List (List Char) :=
  (splitChar ',' a.data).map trimChars

/-- The cleaning of the trailing address segment in
`_parse_il_from_address_only`: strip the country name, then delete
`\d{5}\s*` runs, stripping whitespace after each step. -/
def cleanLast (l : List Char) : List Char :=
  trimChars (rmFiveRuns (trimChars (removeSub "turkey" (removeSub "Türkiye" l))))

/-- The guard on the second-to-last segment, shared by both resolvers:
no five-consecutive-digit run and at most three whitespace tokens. -/
def fallbackOk (seg : List Char) : Bool :=
  !hasFiveDigitRun seg && decide (wsTokenCount seg ≤ 3)

/-- The `İlçe/İl` slash handling of `_parse_il_from_address_only`: if the
segment contains `/`, take the second slash-separated piece (or the only
piece). -/
def slashPick (l : List Char) : List Char :=
  if l.contains '/' then
    match (splitChar '/' l).map trimChars with
    | _ :: b :: _ => b
    | [a] => a
    | [] => l
  else l

/-- The tail of `_parse_il_from_address_only`: an empty candidate yields
`None`; otherwise the candidate is stripped, normalized, and replaced by
the matching registry province name when one normalizes identically. -/
def finishCandidate (cand : String) : Option String :=
  if cand = "" then none
  else
    let p := pyStrip cand
    let pn := normalizeIlName p
    match ilValues.find? (fun v => normalizeIlName v == pn) with
    | some v => some v
    | none => some p

/-- The comma-splitting fallback body of `_parse_il_from_address_only`
(everything after the postal-code shortcut). -/
def parseIlTextOnly (a : String) : Option String :=
  match (addressParts a).reverse with
  | [] => none
  | lastp :: restRev =>
    let l1 := cleanLast lastp
    let l2 :=
      if l1 = [] then
        match restRev with
        | second :: _ => if fallbackOk second then second else l1
        | [] => l1
      else l1
    finishCandidate (String.mk (slashPick l2))

/-- `_parse_il_from_address_only`: postal code first (most trusted), then
the comma-splitting text parse. -/
def parseIlFromAddressOnly (a : String) : Option String :=
  if a = "" then none
  else
    match (extractPostal a).bind ilFromPostal with
    | some p => some p
    | none => parseIlTextOnly a

/-- `_extract_il_from_location_text`: strip country tokens, split on
commas, return the trailing segment. -/
def extractIlFromLocationText (lt : String) : Option String :=
  if lt = "" then none
  else
    let lc := trimChars (removeSub "turkey" (removeSub "Türkiye" lt.data))
    match ((splitChar ',' lc).map trimChars).reverse with
    | p :: _ => some (String.mk (trimChars p))
    | [] => none

/-- `_is_ilce_valid_for_il`: the district is invalidated only when the
address carries a postal code whose province disagrees with `il`. -/
def ilceValidForIl (ilce il : Option String) (address : String) : Bool :=
  if !(optTruthy ilce) || !(optTruthy il) then true
  else if address = "" then true
  else
    match (extractPostal address).bind ilFromPostal with
    | none => true
    | some pil => normalizeIlName (il.getD "") == normalizeIlName pil

/-- `_parse_il_ilce`: the full province/district resolver, including the
location-text reconciliation that prefers the declared location's
province whenever the postal-code province disagrees with it. -/
def parseIlIlce (address : Option String) (locationText : Option String) :
    Option String × Option String :=
  let locationIl : Option String :=
    match locationText with
    | some lt => if lt = "" then none else extractIlFromLocationText lt
    | none => none
  match address with
  | none => (locationIl, none)
  | some a =>
    if a = "" then (locationIl, none)
    else
      let postalIl : Option String := (extractPostal a).bind ilFromPostal
      let parts := addressParts a
      let lastp := parts.getLastD []
      let pr : Option String × Option String :=
        if lastp.contains '/' then
          match (splitChar '/' lastp).map trimChars with
          | i0 :: i1 :: _ =>
            (some (String.mk i1), some (String.mk (trimChars (stripLeadingPostal i0))))
          | [i0] => (some (String.mk i0), none)
          | [] => (none, none)
        else (some (String.mk lastp), none)
      let parsedIl := pr.1
      let parsedIlce := pr.2
      let parsedIlce2 :=
        if !(optTruthy parsedIlce) && decide (2 ≤ parts.length) then
          match parts.reverse with
          | _ :: second :: _ =>
            if fallbackOk second then some (String.mk second) else parsedIlce
          | _ => parsedIlce
        else parsedIlce
      let fin : Option String × Option String :=
        match locationIl with
        | some li =>
          if li = "" then (parsedIl, parsedIlce2)
          else
            let locN := normalizeIlName li
            match postalIl with
            | some pil =>
              if locN ≠ normalizeIlName pil then (some li, none)
              else
                match parsedIl with
                | some pi =>
                  if pi ≠ "" then
                    (if locN ≠ normalizeIlName pi then some li else parsedIl, parsedIlce2)
                  else (some li, parsedIlce2)
                | none => (some li, parsedIlce2)
            | none =>
              match parsedIl with
              | some pi =>
                if pi ≠ "" then
                  if !containsSub locN.data (normalizeIlName pi).data &&
                     !containsSub (normalizeIlName pi).data locN.data then
                    (some li, none)
                  else (parsedIl, parsedIlce2)
                else (some li, parsedIlce2)
              | none => (some li, parsedIlce2)
        | none => (parsedIl, parsedIlce2)
      let finalIlce :=
        if optTruthy fin.1 && optTruthy fin.2 then
          if ilceValidForIl fin.2 fin.1 a then fin.2 else none
        else fin.2
      (fin.1, finalIlce)

/-!  The lead record built by `find_business_leads` and the filter set it
receives.  (The geometry fields are never consulted by the filter, dedup
or export stages, so they are elided from the record.)  Ratings are
modeled as exact rationals. -/

structure Lead where
  name : Option String
  formatted_address : Option String
  place_id : Option String
  types : List String
  rating : Option Rat
  user_ratings_total : Option Int
  business_status : Option String
  phone : Option String
  phone_intl : Option String
  website : Option String
  open_now : Option Bool
deriving DecidableEq, Repr

structure FilterParams where
  min_rating : Option Rat
  min_user_ratings_total : Option Int
  types_include : Option (List String)
  types_exclude : Option (List String)
  require_phone_or_website : Bool
  only_open_now : Option Bool
  business_status_in : Option (List String)
deriving DecidableEq, Repr

/-- The default filter arguments of `find_business_leads`. -/
def defaultParams : FilterParams :=
  { min_rating := none, min_user_ratings_total := none, types_include := none,
    types_exclude := none, require_phone_or_website := false,
    only_open_now := none, business_status_in := none }

/-- Python truthiness of an optional list argument (`if types_include:`). -/
def optListTruthy (o : Option (List String)) : Bool :=
  match o with
  | none => false
  | some l => !l.isEmpty

/-- The geographic gate at the top of `pass_filters` (maps_mcp.py
lines 116-149): postal code first; unknown-but-present postal code
rejects; otherwise the address-only parse; otherwise a raw substring
check of the normalized declared province inside the lowercased address. -/
def geoGate (locationIl addr : Option String) : Bool :=
  match locationIl, addr with
  | some loc, some a =>
    if loc = "" ∨ a = "" then true
    else
      let locNorm := normalizeIlName loc
      match extractPostal a with
      | some pc =>
        match ilFromPostal pc with
        | some postalIl => locNorm == normalizeIlName postalIl
        | none => false
      | none =>
        match parseIlFromAddressOnly a with
        | some parsed =>
          if parsed ≠ "" then locNorm == normalizeIlName parsed
          else containsSub locNorm.data (pyLower a).data
        | none => containsSub locNorm.data (pyLower a).data
  | _, _ => true

/-- The attribute filters of `pass_filters` (maps_mcp.py lines 151-175),
in source order; the conjunction mirrors the early-return chain. -/
def attrFilters (p : FilterParams) (x : Lead) : Bool :=
  (match p.min_rating with
   | none => true
   | some m => match x.rating with
     | none => false
     | some r => !decide (r < m)) &&
  (match p.min_user_ratings_total with
   | none => true
   | some m => match x.user_ratings_total with
     | none => false
     | some ur => !decide (ur < m)) &&
  (if optListTruthy p.types_include then
     x.types.any (fun t => ((p.types_include.getD []).map pyLower).contains t)
   else true) &&
  (if optListTruthy p.types_exclude then
     !x.types.any (fun t => ((p.types_exclude.getD []).map pyLower).contains t)
   else true) &&
  (if p.require_phone_or_website then optTruthy x.phone || optTruthy x.website
   else true) &&
  (match p.only_open_now with
   | some true => x.open_now == some true
   | _ => true) &&
  (if optListTruthy p.business_status_in then
     ((p.business_status_in.getD []).map pyUpper).contains
       (pyUpper (x.business_status.getD ""))
   else true)

/-- `pass_filters`: the geographic gate composed with the attribute
filters (the Python function returns `False` at the first failing check
and `True` once all checks fall through). -/
def pass_filters (locationIl : Option String) (p : FilterParams) (x : Lead) : Bool :=
  geoGate locationIl x.formatted_address && attrFilters p x

/-- The two dedup modes of `find_business_leads`. -/
inductive DedupeBy where
  | place_id : DedupeBy
  | name_address : DedupeBy
deriving DecidableEq, Repr

/-- A dedup key: the raw optional `place_id`, or the stripped/lowercased
`(name, formatted_address)` pair. -/
inductive DKey where
  | pid : Option String → DKey
  | na : String → String → DKey
deriving DecidableEq, Repr

/-- The key expression inside the dedup loop (maps_mcp.py lines 183-186). -/
def dkey (m : DedupeBy) (x : Lead) : DKey :=
  match m with
  | .place_id => .pid x.place_id
  | .name_address =>
    .na (pyLower (pyStrip (x.name.getD ""))) (pyLower (pyStrip (x.formatted_address.getD "")))

/-- The dedup loop: `seen` is the set of keys already emitted. -/
def dedupeGo (m : DedupeBy) (seen : List DKey) : List Lead → List Lead
  | [] => []
  | x :: xs =>
    if dkey m x ∈ seen then dedupeGo m seen xs
    else x :: dedupeGo m (dkey m x :: seen) xs

/-- Deduplication as performed in `find_business_leads` (lines 179-190). -/
def dedupe (m : DedupeBy) (xs : List Lead) : List Lead := dedupeGo m [] xs

/-- The filter-plus-dedup pipeline applied to the normalized leads. -/
def leadPipeline (locationIl : Option String) (p : FilterParams) (m : DedupeBy)
    (xs : List Lead) : List Lead :=
  dedupe m (xs.filter (pass_filters locationIl p))

/-!  Paginated search and detail enrichment (`google_places_client.py`). -/

structure OpeningHours where
  open_now : Option Bool
deriving DecidableEq, Repr

/-- The `details` block attached to a raw result (the four fields copied
from the Place Details response). -/
structure DetailsBlock where
  formatted_phone_number : Option String
  international_phone_number : Option String
  website : Option String
  opening_hours : Option OpeningHours
deriving DecidableEq, Repr

/-- A raw Text Search result, restricted to the fields the collection,
enrichment and pagination logic inspects. -/
structure RawResult where
  place_id : Option String
  name : Option String
  formatted_address : Option String
  details : Option DetailsBlock
deriving DecidableEq, Repr

/-- One Text Search page as returned by the provider. -/
structure SearchPage where
  status : String
  results : List RawResult
  next_page_token : Option String
deriving DecidableEq, Repr

/-- The pagination loop of `search_leads` (lines 139-156): the argument
list is the finite stream of provider responses to successive requests.
Stops when the accumulator reaches `limit` (also breaking mid-page), when
the page carries no truthy continuation token, or on a `ZERO_RESULTS`
status; any other non-`OK` status aborts with an error. -/
def searchLoop (limit : Nat) : List RawResult → List SearchPage →
    Except String (List RawResult)
  | acc, [] => Except.ok acc
  | acc, p :: rest =>
    if limit ≤ acc.length then Except.ok acc
    else if p.status ≠ "OK" ∧ p.status ≠ "ZERO_RESULTS" then Except.error p.status
    else
      let acc2 := acc ++ p.results.take (limit - acc.length)
      if ¬ optTruthy p.next_page_token ∨ limit ≤ acc2.length ∨ p.status = "ZERO_RESULTS"
      then Except.ok acc2
      else searchLoop limit acc2 rest

/-- `search_leads`'s accumulation phase, started from the empty collector. -/
def searchLeadsPages (limit : Nat) (pages : List SearchPage) :
    Except String (List RawResult) :=
  searchLoop limit [] pages

/-- The Place Details response as the enrichment step reads it. -/
structure DetailsResponse where
  status : String
  result : DetailsBlock
deriving DecidableEq, Repr

/-- A details provider: place_id → response, or a raised transport error. -/
def DetailsFetch : Type := String → Except String DetailsResponse

/-- The `enrich` closure of `search_leads` (lines 163-180) for one item:
a falsy place_id is skipped; a raised error or a non-`OK` status is
swallowed, leaving the item untouched; an `OK` response attaches the four
copied fields as the `details` block. -/
def enrichOne (fetch : DetailsFetch) (it : RawResult) : RawResult :=
  match it.place_id with
  | none => it
  | some pid =>
    if pid = "" then it
    else
      match fetch pid with
      | .error _ => it
      | .ok d => if d.status = "OK" then { it with details := some d.result } else it

/-- Best-effort enrichment of the whole batch.  Each task mutates only its
own item, so the bounded-concurrency fan-out is observationally the
per-item map below; the function is total — enrichment cannot produce an
error value. -/
def enrichAll (fetch : DetailsFetch) (items : List RawResult) : List RawResult :=
  items.map (enrichOne fetch)

/-- A single detail lookup failing: the provider raises, or answers with a
non-`OK` status. -/
def lookupFails (fetch : DetailsFetch) (pid : String) : Prop :=
  (∃ e, fetch pid = Except.error e) ∨ (∃ d, fetch pid = Except.ok d ∧ d.status ≠ "OK")

/-!  The limit clamp and the export tail of `find_business_leads`
(`maps_mcp.py`), and the sheet-existence guards of
`google_sheets_writer.py`. -/

/-- The silent clamp at the top of `find_business_leads` (lines 70-73). -/
def clampLimit (l : Int) : Int :=
  let l1 := if l < 1 then 1 else l
  if l1 > 120 then 120 else l1

/-- The error message of `ensure_header` / `append_rows` when the target
tab is absent. -/
def sheetMissingMsg (name : String) : String :=
  "Google Sheets sayfası \"" ++ name ++ "\" bulunamadı. " ++
  "Lütfen önce \"" ++ name ++ "\" adında bir sayfa oluşturun."

/-- `GoogleSheetsAppender.ensure_header`: raises when the tab does not
pre-exist (the header write itself is an external side effect). -/
def ensure_header (sheetExists : Bool) (sheetName : String) : Except String Unit :=
  if !sheetExists then Except.error (sheetMissingMsg sheetName) else Except.ok ()

structure GoogleSheetsWriteResult where
  spreadsheet_id : String
  sheet_name : String
deriving DecidableEq, Repr

/-- `GoogleSheetsAppender.append_rows`: same existence guard; the remote
append response fields are abstracted away. -/
def append_rows (sheetExists : Bool) (sheetName ssid : String)
    (rows : List (List String)) : Except String GoogleSheetsWriteResult :=
  if !sheetExists then Except.error (sheetMissingMsg sheetName)
  else Except.ok { spreadsheet_id := ssid, sheet_name := sheetName }

/-- The export attempt inside the facade's `try` block:
`ensure_header` then `append_rows`. -/
def runExport (sheetExists : Bool) (sheetName ssid : String)
    (rows : List (List String)) : Except String GoogleSheetsWriteResult :=
  (ensure_header sheetExists sheetName).bind (fun _ => append_rows sheetExists sheetName ssid rows)

/-- The `google_sheets` annotation attached to the response. -/
structure SheetsAnnotation where
  ok : Bool
  error : Option String
deriving DecidableEq, Repr

/-- The JSON success envelope of `find_business_leads`. -/
structure FacadeResponse where
  leads : List Lead
  total : Nat
  google_sheets : Option SheetsAnnotation
deriving DecidableEq, Repr

/-- The facade tail (maps_mcp.py lines 248-294): build the success
envelope, and when export is requested, catch any export failure and
record it as a non-fatal annotation. -/
def finalizeResponse (doExport sheetExists : Bool) (sheetName ssid : String)
    (leads : List Lead) (rows : List (List String)) : FacadeResponse :=
  let base : FacadeResponse := { leads := leads, total := leads.length, google_sheets := none }
  if doExport then
    match runExport sheetExists sheetName ssid rows with
    | .ok _ => { base with google_sheets := some { ok := true, error := none } }
    | .error e => { base with google_sheets := some { ok := false, error := some e } }
  else base

/-!  Concrete fixtures used by the witness instantiations below. -/

def baseLead : Lead :=
  { name := none, formatted_address := none, place_id := none, types := [],
    rating := none, user_ratings_total := none, business_status := none,
    phone := none, phone_intl := none, website := none, open_now := none }

/-- Address whose postal code (55…) maps to samsun while the declared
location is Ankara. -/
def leadMalatya : Lead :=
  { baseLead with formatted_address := some "X, 55020 Malatya", place_id := some "p1" }

/-- Address with a present postal code whose prefix (82) maps to no province. -/
def leadBadPostal : Lead :=
  { baseLead with formatted_address := some "Merkez, 82000 Samsun", place_id := some "p2" }

def corumAddr : String := "Çorum Sanayi Sitesi Blok No 5, Türkiye"

def leadCorum : Lead :=
  { baseLead with formatted_address := some corumAddr, place_id := some "p3" }

def samsunNoPostalAddr : String := "Samsun Bulvarı Üzeri Dört Yol Ağzı, Türkiye"

def leadSamsunNoPostal : Lead :=
  { baseLead with formatted_address := some samsunNoPostalAddr, place_id := some "p4" }

def leadA : Lead := { baseLead with place_id := some "dup", name := some "A" }

def leadB : Lead := { baseLead with place_id := some "other", name := some "B" }

def leadA2 : Lead := { baseLead with place_id := some "dup", name := some "A copy" }

/-- Filter set requiring a phone or website. -/
def paramsContact : FilterParams := { defaultParams with require_phone_or_website := true }

def rawA : RawResult :=
  { place_id := some "a", name := none, formatted_address := none, details := none }

def rawB : RawResult :=
  { place_id := some "b", name := none, formatted_address := none, details := none }

def rawC : RawResult :=
  { place_id := some "c", name := none, formatted_address := none, details := none }

/-- A first page holding more results than the remaining budget, with a
continuation token present. -/
def pageBig : SearchPage :=
  { status := "OK", results := [rawA, rawB, rawC], next_page_token := some "tok" }

/-- A details provider that always raises. -/
def fetchFail : DetailsFetch := fun _ => Except.error "network down"

/-!  Helper lemmas. -/

/-- Any successful run of the pagination loop started from an accumulator
within budget stays within budget. -/
theorem searchLoop_ok_length (limit : Nat) :
    ∀ (pages : List SearchPage) (acc : List RawResult), acc.length ≤ limit →
      ∀ out, searchLoop limit acc pages = Except.ok out → out.length ≤ limit := by
  intro pages
  induction pages with
  | nil =>
    intro acc hacc out h
    simp only [searchLoop] at h
    cases h
    exact hacc
  | cons p rest ih =>
    intro acc hacc out h
    simp only [searchLoop] at h
    split at h
    · cases h; exact hacc
    · rename_i hlt
      split at h
      · cases h
      · have hlen : (acc ++ p.results.take (limit - acc.length)).length ≤ limit := by
          simp only [List.length_append, List.length_take]
          omega
        split at h
        · cases h; exact hlen
        · exact ih _ hlen out h

/-- The empty string holds no postal code. -/
theorem extractPostal_empty : extractPostal "" = none := rfl

theorem extractPostal_ne_empty {a : String} {pc : String}
    (h : extractPostal a = some pc) : a ≠ "" := by
  intro he
  rw [he, extractPostal_empty] at h
  cases h

/-- One lookup failure leaves the item untouched. -/
theorem enrichOne_of_fails (fetch : DetailsFetch) (it : RawResult)
    (hit : ∀ pid, it.place_id = some pid → lookupFails fetch pid) :
    enrichOne fetch it = it := by
  cases hpid : it.place_id with
  | none => simp [enrichOne, hpid]
  | some pid =>
    by_cases hp : pid = ""
    · simp [enrichOne, hpid, hp]
    · rcases hit pid hpid with ⟨e, he⟩ | ⟨d, hd, hds⟩
      · simp [enrichOne, hpid, hp, he]
      · simp [enrichOne, hpid, hp, hd, hds]

theorem enrichAll_of_all_fail (fetch : DetailsFetch) :
    ∀ (its : List RawResult),
      (∀ it ∈ its, ∀ pid, it.place_id = some pid → lookupFails fetch pid) →
      enrichAll fetch its = its := by
  intro its
  induction its with
  | nil => intro _; rfl
  | cons a as ih =>
    intro hh
    have ha : enrichOne fetch a = a :=
      enrichOne_of_fails fetch a (fun pid hpid => hh a (List.mem_cons_self a as) pid hpid)
    have has := ih (fun it hit => hh it (List.mem_cons_of_mem a hit))
    simp only [enrichAll, List.map_cons] at has ⊢
    rw [ha, has]

/-!  Claim theorems. -/

/-- C4: for every query with limit L ≥ 1, the paginated search
accumulator never exceeds L items: a successful run returns at most L
results; a page holding at least the remaining budget fills the
accumulator to exactly L mid-page; and once L is reached, the
continuation token is absent, or the page reports `ZERO_RESULTS`, the
rest of the provider stream is never consulted. -/
theorem pagination_caps_at_limit (limit : Nat) (h1 : 1 ≤ limit)
    (pages : List SearchPage) :
    (∀ out, searchLeadsPages limit pages = Except.ok out → out.length ≤ limit) ∧
    (∀ (acc : List RawResult) (p : SearchPage),
        acc.length < limit → limit - acc.length ≤ p.results.length →
        (acc ++ p.results.take (limit - acc.length)).length = limit) ∧
    (∀ (acc : List RawResult) (p : SearchPage) (rest rest' : List SearchPage),
        (¬ optTruthy p.next_page_token ∨
          limit ≤ (acc ++ p.results.take (limit - acc.length)).length ∨
          p.status = "ZERO_RESULTS") →
        searchLoop limit acc (p :: rest) = searchLoop limit acc (p :: rest')) := by
  refine ⟨fun out h => searchLoop_ok_length limit pages [] (by simp) out h, ?_, ?_⟩
  · intro acc p hlt hbudget
    simp only [List.length_append, List.length_take]
    omega
  · intro acc p rest rest' hstop
    by_cases hA : limit ≤ acc.length
    · simp only [searchLoop, if_pos hA]
    · by_cases hB : p.status ≠ "OK" ∧ p.status ≠ "ZERO_RESULTS"
      · simp only [searchLoop, if_neg hA, if_pos hB]
      · simp only [searchLoop, if_neg hA, if_neg hB, if_pos hstop]

/-- Witness for C4: limit 2 against a 3-result first page with a live
continuation token — the run stops at exactly 2 results. -/
theorem pagination_caps_at_limit_witness :
    ([rawA, rawB] : List RawResult).length ≤ 2 :=
  (pagination_caps_at_limit 2 (by decide) [pageBig]).1 [rawA, rawB] (by decide)

/-- C5: a failed detail lookup (raised error or non-OK status) is
swallowed, leaving the item without a new `details` block, and a batch in
which every lookup fails is returned unchanged — same leads, same count;
`enrichAll` is total, so enrichment never turns the search into an error. -/
theorem enrichment_failures_swallowed (fetch : DetailsFetch) (items : List RawResult)
    (h : ∀ it ∈ items, ∀ pid, it.place_id = some pid → lookupFails fetch pid) :
    (∀ it : RawResult, (∀ pid, it.place_id = some pid → lookupFails fetch pid) →
        enrichOne fetch it = it) ∧
    enrichAll fetch items = items ∧
    (enrichAll fetch items).length = items.length := by
  have hall := enrichAll_of_all_fail fetch items h
  exact ⟨fun it hit => enrichOne_of_fails fetch it hit, hall, by rw [hall]⟩

/-- Witness for C5: a provider that always raises leaves a batch intact. -/
theorem enrichment_failures_swallowed_witness :
    enrichAll fetchFail [rawA, rawB] = [rawA, rawB] :=
  (enrichment_failures_swallowed fetchFail [rawA, rawB]
    (fun _ _ _ _ => Or.inl ⟨"network down", rfl⟩)).2.1

/-- C8: when the export step fails — in particular with the error raised
when the target tab does not pre-exist — the facade still returns the
full lead list and total, reporting the failure only as a non-fatal
`google_sheets` annotation with `ok = false` and the error message. -/
theorem export_failure_nonfatal (sheetExists : Bool) (sheetName ssid : String)
    (leads : List Lead) (rows : List (List String)) (e : String)
    (hfail : runExport sheetExists sheetName ssid rows = Except.error e) :
    (finalizeResponse true sheetExists sheetName ssid leads rows).leads = leads ∧
    (finalizeResponse true sheetExists sheetName ssid leads rows).total = leads.length ∧
    (finalizeResponse true sheetExists sheetName ssid leads rows).google_sheets =
      some { ok := false, error := some e } ∧
    (sheetExists = false → e = sheetMissingMsg sheetName) := by
  refine ⟨?_, ?_, ?_, ?_⟩
  · simp [finalizeResponse, hfail]
  · simp [finalizeResponse, hfail]
  · simp [finalizeResponse, hfail]
  · intro hse
    subst hse
    simp only [runExport, ensure_header, Bool.not_false, if_pos rfl] at hfail
    cases hfail
    rfl

/-- Witness for C8: exporting to an absent tab annotates the response and
keeps the leads. -/
theorem export_failure_nonfatal_witness :
    (finalizeResponse true false "Leads" "sid" [leadA] []).leads = [leadA] ∧
    (finalizeResponse true false "Leads" "sid" [leadA] []).google_sheets =
      some { ok := false, error := some (sheetMissingMsg "Leads") } := by
  have h := export_failure_nonfatal false "Leads" "sid" [leadA] []
    (sheetMissingMsg "Leads") (by decide)
  exact ⟨h.1, h.2.2.1⟩

/-- C9: the requested limit is silently clamped into [1, 120] before the
search runs — below 1 behaves as 1, above 120 behaves as 120, in-range
values pass through — and a successful paginated run under the clamped
limit never returns more than 120 results. -/
theorem limit_clamped (l : Int) :
    (1 ≤ clampLimit l ∧ clampLimit l ≤ 120) ∧
    (l < 1 → clampLimit l = 1) ∧
    (120 < l → clampLimit l = 120) ∧
    (1 ≤ l → l ≤ 120 → clampLimit l = l) ∧
    (∀ (pages : List SearchPage) out,
        searchLeadsPages (clampLimit l).toNat pages = Except.ok out →
        out.length ≤ 120) := by
  have hb : 1 ≤ clampLimit l ∧ clampLimit l ≤ 120 := by
    simp only [clampLimit]
    by_cases h1 : l < 1
    · rw [if_pos h1, if_neg (by norm_num : ¬ (1 : Int) > 120)]
      norm_num
    · rw [if_neg h1]
      by_cases h2 : l > 120
      · rw [if_pos h2]
        norm_num
      · rw [if_neg h2]
        omega
  refine ⟨hb, ?_, ?_, ?_, ?_⟩
  · intro h
    simp only [clampLimit]
    rw [if_pos h, if_neg (by norm_num : ¬ (1 : Int) > 120)]
  · intro h
    simp only [clampLimit]
    rw [if_neg (by omega : ¬ l < 1), if_pos (by omega : l > 120)]
  · intro h1 h2
    simp only [clampLimit]
    rw [if_neg (by omega : ¬ l < 1), if_neg (by omega : ¬ l > 120)]
  · intro pages out h
    have hlen := searchLoop_ok_length (clampLimit l).toNat pages [] (by simp) out h
    have : (clampLimit l).toNat ≤ 120 := by omega
    omega

/-- Witness for C9: limit 200 clamps to 120. -/
theorem limit_clamped_witness : clampLimit 200 = 120 :=
  (limit_clamped 200).2.2.1 (by norm_num)

/-- C10: a lead whose `formatted_address` is missing or empty bypasses
the geographic gate entirely — `pass_filters` degenerates to exactly the
attribute filters, for every declared province. -/
theorem missing_address_bypasses_geo (locationIl : Option String)
    (p : FilterParams) (x : Lead)
    (h : x.formatted_address = none ∨ x.formatted_address = some "") :
    pass_filters locationIl p x = attrFilters p x := by
  have hgate : geoGate locationIl x.formatted_address = true := by
    rcases h with h | h <;> rw [h] <;> cases locationIl <;> simp [geoGate]
  simp [pass_filters, hgate]

/-- Witness for C10: an address-less lead with no contact data is still
rejected by the contact-presence filter, but not by the geographic gate. -/
theorem missing_address_bypasses_geo_witness :
    pass_filters (some "Samsun") paramsContact baseLead =
      attrFilters paramsContact baseLead :=
  missing_address_bypasses_geo (some "Samsun") paramsContact baseLead (Or.inl rfl)

/-- C2: with a declared province present, a lead whose address contains a
postal code is rejected whenever the postal-prefix province differs from
the declared province after normalization, and also whenever the prefix
maps to no known province. -/
theorem postal_mismatch_rejected (loc a pc : String) (p : FilterParams) (x : Lead)
    (hloc : loc ≠ "") (haddr : x.formatted_address = some a)
    (hpc : extractPostal a = some pc) :
    (∀ prov, ilFromPostal pc = some prov →
        normalizeIlName loc ≠ normalizeIlName prov →
        pass_filters (some loc) p x = false) ∧
    (ilFromPostal pc = none → pass_filters (some loc) p x = false) := by
  have ha : a ≠ "" := extractPostal_ne_empty hpc
  have hcond : ¬ (loc = "" ∨ a = "") := by
    push_neg
    exact ⟨hloc, ha⟩
  constructor
  · intro prov hprov hne
    simp only [pass_filters, haddr, geoGate, if_neg hcond, hpc, hprov]
    simp [beq_iff_eq, hne]
  · intro hnone
    simp only [pass_filters, haddr, geoGate, if_neg hcond, hpc, hnone]
    simp

/-- Witness for C2: declared Ankara against a Samsun (55…) postal code is
rejected; declared Samsun against an unmapped prefix (82…) is rejected. -/
theorem postal_mismatch_rejected_witness :
    pass_filters (some "Ankara") defaultParams leadMalatya = false ∧
    pass_filters (some "Samsun") defaultParams leadBadPostal = false :=
  ⟨(postal_mismatch_rejected "Ankara" "X, 55020 Malatya" "55020" defaultParams
      leadMalatya (by decide) (by decide) (by decide)).1 "samsun" (by decide) (by decide),
   (postal_mismatch_rejected "Samsun" "Merkez, 82000 Samsun" "82000" defaultParams
      leadBadPostal (by decide) (by decide) (by decide)).2 (by decide)⟩

/-- C1 (amended): the address-only resolver gives the postal code
absolute priority — any address with a standalone five-digit postal code
whose prefix maps to province P resolves to P, regardless of conflicting
province text elsewhere in the address. -/
theorem postal_code_authoritative (a pc prov : String)
    (hpc : extractPostal a = some pc) (hprov : ilFromPostal pc = some prov) :
    parseIlFromAddressOnly a = some prov := by
  have ha : a ≠ "" := extractPostal_ne_empty hpc
  simp only [parseIlFromAddressOnly, if_neg ha, hpc, Option.some_bind, hprov]

/-- Witness for C1: the spec's own scenario, `"Atakum, 55200 Samsun"`
resolves to samsun through the postal code. -/
theorem postal_code_authoritative_witness :
    parseIlFromAddressOnly "Atakum, 55200 Samsun" = some "samsun" :=
  postal_code_authoritative "Atakum, 55200 Samsun" "55200" "samsun"
    (by decide) (by decide)

/-- Counterexample to C1 as stated: `_parse_il_ilce` does NOT resolve the
postal-code province for every declared location text.  On
`"X, 55020 Malatya"` the postal code maps to samsun, yet with declared
location `"Ankara"` the resolver returns Ankara, and with no declared
location it returns the raw trailing segment, ignoring the postal code. -/
theorem postal_code_authoritative_counterexample :
    extractPostal "X, 55020 Malatya" = some "55020" ∧
    ilFromPostal "55020" = some "samsun" ∧
    parseIlIlce (some "X, 55020 Malatya") (some "Ankara") = (some "Ankara", none) ∧
    (parseIlIlce (some "X, 55020 Malatya") (some "Ankara")).1.map normalizeIlName ≠
      some (normalizeIlName "samsun") ∧
    parseIlIlce (some "X, 55020 Malatya") none = (some "55020 Malatya", none) := by
  decide

/-- C3 (amended): when the address has no postal code and the address-only
parse fails, `pass_filters` degenerates to the substring gate — the
diacritic-folded declared province searched inside the merely lowercased
address — conjoined with the attribute filters.  Diacritics in the
address itself are NOT folded. -/
theorem substring_gate_characterization (loc a : String) (p : FilterParams) (x : Lead)
    (hloc : loc ≠ "") (haddr : x.formatted_address = some a) (ha : a ≠ "")
    (hpc : extractPostal a = none) (hparse : parseIlFromAddressOnly a = none) :
    pass_filters (some loc) p x =
      (containsSub (normalizeIlName loc).data (pyLower a).data && attrFilters p x) := by
  have hcond : ¬ (loc = "" ∨ a = "") := by
    push_neg
    exact ⟨hloc, ha⟩
  simp only [pass_filters, haddr, geoGate, if_neg hcond, hpc, hparse]

/-- Witness for C3: declared Samsun, an address whose trailing-segment
parse fails but which contains the literal lowercase substring — accepted
with default filters. -/
theorem substring_gate_characterization_witness :
    pass_filters (some "Samsun") defaultParams leadSamsunNoPostal =
      (containsSub (normalizeIlName "Samsun").data (pyLower samsunNoPostalAddr).data &&
        attrFilters defaultParams leadSamsunNoPostal) :=
  substring_gate_characterization "Samsun" samsunNoPostalAddr defaultParams
    leadSamsunNoPostal (by decide) (by decide) (by decide) (by decide) (by decide)

/-- Counterexample to C3 as stated: the comparison is not
diacritic-insensitive on the address side.  Declared province `"Çorum"`
occurs in the address under a genuinely case- and diacritic-insensitive
comparison (both sides folded), yet the filter rejects the lead, because
the folded needle `"corum"` is searched in the unfolded lowercase address
still containing `"çorum"`. -/
theorem substring_gate_counterexample :
    extractPostal corumAddr = none ∧
    parseIlFromAddressOnly corumAddr = none ∧
    containsSub (normalizeIlName "Çorum").data (normalizeIlName corumAddr).data = true ∧
    pass_filters (some "Çorum") defaultParams leadCorum = false := by
  decide

/-- C7 (amended): with no postal code anywhere in the address and an
empty cleaned trailing segment, the address-only resolver falls back to
the second-to-last comma-separated segment — used as the province
candidate — provided that segment has at most 3 whitespace tokens and no
run of five consecutive digits (single digits do NOT disqualify it). -/
theorem second_last_fallback (a : String) (lastSeg second : List Char)
    (rest : List (List Char))
    (hpostal : extractPostal a = none)
    (ha : a ≠ "")
    (hparts : (addressParts a).reverse = lastSeg :: second :: rest)
    (hclean : cleanLast lastSeg = [])
    (hfb : fallbackOk second = true) :
    parseIlFromAddressOnly a = finishCandidate (String.mk (slashPick second)) := by
  simp only [parseIlFromAddressOnly, if_neg ha, hpostal, Option.bind_none,
    parseIlTextOnly, hparts, hclean, hfb]
  simp

/-- Witness for C7: `"Merkez Mah, Kavak, Türkiye"` — trailing segment
empties after country stripping, the short digit-free `"Kavak"` becomes
the candidate. -/
theorem second_last_fallback_witness :
    parseIlFromAddressOnly "Merkez Mah, Kavak, Türkiye" =
      finishCandidate (String.mk (slashPick "Kavak".data)) :=
  second_last_fallback "Merkez Mah, Kavak, Türkiye" "Türkiye".data "Kavak".data
    ["Merkez Mah".data] (by decide) (by decide) (by decide) (by decide) (by decide)

/-- Counterexample to C7 as stated: the guard is not "contains no
digits".  The second-to-last segment `"No 5 Cadde"` contains a digit, yet
the resolver still takes the fallback and returns it as the candidate,
because the code only excludes runs of five consecutive digits. -/
theorem second_last_fallback_counterexample :
    extractPostal "Foo, No 5 Cadde, Türkiye" = none ∧
    cleanLast "Türkiye".data = [] ∧
    ("No 5 Cadde".data.any Char.isDigit) = true ∧
    fallbackOk "No 5 Cadde".data = true ∧
    parseIlFromAddressOnly "Foo, No 5 Cadde, Türkiye" = some "No 5 Cadde" := by
  decide

/-!  Dedup lemmas for C6. -/

/-- The dedup loop emits a sublist of its input (order preserved). -/
theorem dedupeGo_sublist (m : DedupeBy) (xs : List Lead) :
    ∀ seen, (dedupeGo m seen xs).Sublist xs := by
  induction xs with
  | nil => intro seen; simp [dedupeGo]
  | cons x xs ih =>
    intro seen
    simp only [dedupeGo]
    split
    · exact (ih seen).cons x
    · exact (ih _).cons₂ x

/-- Every emitted lead has a key outside the starting `seen` set. -/
theorem dedupeGo_key_not_seen (m : DedupeBy) (xs : List Lead) :
    ∀ seen y, y ∈ dedupeGo m seen xs → dkey m y ∉ seen := by
  induction xs with
  | nil => intro seen y h; simp [dedupeGo] at h
  | cons x xs ih =>
    intro seen y h
    simp only [dedupeGo] at h
    split at h
    · exact ih seen y h
    · rename_i hx
      rcases List.mem_cons.mp h with rfl | h2
      · exact hx
      · have h3 := ih _ y h2
        intro hc
        exact h3 (List.mem_cons_of_mem _ hc)

/-- The emitted keys are pairwise distinct. -/
theorem dedupeGo_keys_nodup (m : DedupeBy) (xs : List Lead) :
    ∀ seen, ((dedupeGo m seen xs).map (dkey m)).Nodup := by
  induction xs with
  | nil => intro seen; simp [dedupeGo]
  | cons x xs ih =>
    intro seen
    simp only [dedupeGo]
    split
    · exact ih seen
    · simp only [List.map_cons, List.nodup_cons]
      refine ⟨?_, ih _⟩
      intro hmem
      rcases List.mem_map.mp hmem with ⟨y, hy, hk⟩
      exact dedupeGo_key_not_seen m xs _ y hy (hk ▸ List.mem_cons_self _ _)

/-- Every input whose key is not yet seen is represented in the output. -/
theorem dedupeGo_covers (m : DedupeBy) (xs : List Lead) :
    ∀ seen x, x ∈ xs → dkey m x ∉ seen →
      ∃ y, y ∈ dedupeGo m seen xs ∧ dkey m y = dkey m x := by
  induction xs with
  | nil => intro seen x hx; simp at hx
  | cons a as ih =>
    intro seen x hx hns
    rcases List.mem_cons.mp hx with rfl | hx2
    · simp only [dedupeGo]
      split
      · exact absurd (by assumption) hns
      · exact ⟨x, List.mem_cons_self _ _, rfl⟩
    · simp only [dedupeGo]
      split
      · exact ih seen x hx2 hns
      · by_cases hk : dkey m x = dkey m a
        · exact ⟨a, List.mem_cons_self _ _, hk.symm⟩
        · have hns2 : dkey m x ∉ dkey m a :: seen := by
            intro hc
            rcases List.mem_cons.mp hc with h1 | h2
            · exact hk h1
            · exact hns h2
          rcases ih _ x hx2 hns2 with ⟨y, hy, hk2⟩
          exact ⟨y, List.mem_cons_of_mem _ hy, hk2⟩

/-- First occurrence wins: each emitted lead is the first input element
carrying its key. -/
theorem dedupeGo_first_wins (m : DedupeBy) (xs : List Lead) :
    ∀ seen y, y ∈ dedupeGo m seen xs →
      xs.find? (fun z => dkey m z == dkey m y) = some y := by
  induction xs with
  | nil => intro seen y h; simp [dedupeGo] at h
  | cons a as ih =>
    intro seen y h
    simp only [dedupeGo] at h
    split at h
    · rename_i hseen
      have hne : (dkey m a == dkey m y) = false := by
        simp only [beq_eq_false_iff_ne, ne_eq]
        intro he
        exact dedupeGo_key_not_seen m as seen y h (he ▸ hseen)
      simp only [List.find?, hne]
      exact ih seen y h
    · rename_i hseen
      rcases List.mem_cons.mp h with rfl | h2
      · simp only [List.find?, beq_self_eq_true]
      · have hny := dedupeGo_key_not_seen m as _ y h2
        have hne : (dkey m a == dkey m y) = false := by
          simp only [beq_eq_false_iff_ne, ne_eq]
          intro he
          exact hny (he ▸ List.mem_cons_self _ _)
        simp only [List.find?, hne]
        exact ih _ y h2

/-- A list with pairwise-distinct keys disjoint from `seen` passes
through the dedup loop unchanged. -/
theorem dedupeGo_of_nodup (m : DedupeBy) (xs : List Lead) :
    ∀ seen, (∀ x ∈ xs, dkey m x ∉ seen) → ((xs.map (dkey m)).Nodup) →
      dedupeGo m seen xs = xs := by
  induction xs with
  | nil => intro seen _ _; rfl
  | cons a as ih =>
    intro seen hs hn
    simp only [List.map_cons, List.nodup_cons] at hn
    simp only [dedupeGo]
    rw [if_neg (hs a (List.mem_cons_self _ _))]
    congr 1
    apply ih
    · intro x hx hc
      rcases List.mem_cons.mp hc with h1 | h2
      · exact hn.1 (h1 ▸ List.mem_map_of_mem (dkey m) hx)
      · exact hs x (List.mem_cons_of_mem _ hx) h2
    · exact hn.2

/-- Dedup is idempotent on its own output. -/
theorem dedupe_idem (m : DedupeBy) (ys : List Lead) :
    dedupe m (dedupe m ys) = dedupe m ys :=
  dedupeGo_of_nodup m (dedupe m ys) []
    (by intro x _ hc; simp at hc) (dedupeGo_keys_nodup m ys [])

/-- C6: deduplication keeps the first occurrence in input order of each
key, drops every later duplicate (keys are pairwise distinct, every input
key survives), preserves the input order (the output is a sublist), and
the filter-plus-dedup pipeline is idempotent on its own output. -/
theorem dedupe_first_wins_idempotent (m : DedupeBy) (xs : List Lead)
    (locationIl : Option String) (p : FilterParams) :
    (dedupe m xs).Sublist xs ∧
    ((dedupe m xs).map (dkey m)).Nodup ∧
    (∀ x ∈ xs, ∃ y, y ∈ dedupe m xs ∧ dkey m y = dkey m x) ∧
    (∀ y ∈ dedupe m xs, xs.find? (fun z => dkey m z == dkey m y) = some y) ∧
    leadPipeline locationIl p m (leadPipeline locationIl p m xs) =
      leadPipeline locationIl p m xs := by
  refine ⟨dedupeGo_sublist m xs [], dedupeGo_keys_nodup m xs [],
    fun x hx => dedupeGo_covers m xs [] x hx (by simp),
    fun y hy => dedupeGo_first_wins m xs [] y hy, ?_⟩
  unfold leadPipeline
  have hf : (dedupe m (xs.filter (pass_filters locationIl p))).filter
      (pass_filters locationIl p) = dedupe m (xs.filter (pass_filters locationIl p)) := by
    apply List.filter_eq_self.mpr
    intro b hb
    have hb2 : b ∈ xs.filter (pass_filters locationIl p) :=
      (dedupeGo_sublist m _ []).subset hb
    exact (List.mem_filter.mp hb2).2
  rw [hf, dedupe_idem]

/-- Witness for C6: a duplicated place_id keeps only its first carrier,
in order. -/
theorem dedupe_first_wins_idempotent_witness :
    ([leadA, leadB, leadA2].find?
      (fun z => dkey DedupeBy.place_id z == dkey DedupeBy.place_id leadA)) = some leadA :=
  (dedupe_first_wins_idempotent DedupeBy.place_id [leadA, leadB, leadA2]
    none defaultParams).2.2.2.1 leadA (by decide)

end IhaleMcp
